import Mathlib

/-!
Verification of the cost-center summarizer's data-processing pipeline
(`src/src/App.tsx`): schema validation (`processJsonData`), aggregation,
the filter/sort engine (`filteredAndSortedCostCenters`), and the report
assembler (`exportReport`, JSON and CSV branches).

Raw parsed JSON is modelled by the `Json` inductive.  JavaScript semantics
that matter to the code are made explicit: property access on `null`
throws a `TypeError`; absent properties read as `undefined` (here
`Option.none`), which is falsy; `!x` tests JS truthiness; `===` against a
string literal only matches an equal string.
-/

namespace CostCenterApp

/-- A parsed JSON value (`JSON.parse` output).  Numbers are modelled as
integers: the resource-based schema handled by this pipeline carries no
numeric data of its own, and all numbers the code produces are counts. -/
inductive Json where
  | null
  | bool (b : Bool)
  | num (n : Int)
  | str (s : String)
  | arr (elems : List Json)
  | obj (fields : List (String × Json))

/-- JavaScript truthiness of a value (`NaN` and `-0` do not arise here). -/
def truthy : Json → Bool
  | .null => false
  | .bool b => b
  | .num n => n != 0
  | .str s => s != ""
  | .arr _ => true
  | .obj _ => true

/-- First binding of a key in an object's field list. -/
def lookupField : List (String × Json) → String → Option Json
  | [], _ => none
  | (k', v) :: rest, k => if k' == k then some v else lookupField rest k

/-- Total property read: `none` models JS `undefined` (absent property, or
any read from a non-object non-null value).  Reads from `null` never reach
this function in the places it is used; they are modelled by `getProp`. -/
def prop (v : Json) (k : String) : Option Json :=
  match v with
  | .obj fields => lookupField fields k
  | _ => none

/-- Errors thrown by the pipeline.  `typeError` stands for a JS
`TypeError` (property access on `null`, or calling an array method on a
non-array); `invalidStructure` for "Invalid JSON structure. Expected an
object with costCenters property containing an array."; `invalidCenter i`
for "Invalid cost center at index i. Expected id, name, state, and
resources array." -/
inductive JsErr where
  | typeError
  | invalidStructure
  | invalidCenter (index : Nat)
deriving DecidableEq, Repr

/-- Property access with JS semantics: reading a property of `null`
throws a `TypeError`; otherwise the result is `prop`. -/
def getProp (v : Json) (k : String) : Except JsErr (Option Json) :=
  match v with
  | .null => .error .typeError
  | .obj fields => .ok (lookupField fields k)
  | _ => .ok none

/-- Truthiness of a possibly-undefined value (`undefined` is falsy). -/
def truthyOpt : Option Json → Bool
  | none => false
  | some v => truthy v

/-- `Array.isArray` on a possibly-undefined value. -/
def isArrOpt : Option Json → Bool
  | some (.arr _) => true
  | _ => false

/-- `center.state === s` for a string literal `s` (strict equality with a
string only matches an equal string). -/
def stateIs (c : Json) (s : String) : Bool :=
  match prop c "state" with
  | some (.str t) => t == s
  | _ => false

/-- `resource.type === t` on a possibly-undefined value. -/
def typeIsOpt (v : Option Json) (t : String) : Bool :=
  match v with
  | some (.str s) => s == t
  | _ => false

/-- `resource.type === t` via a direct (non-null) property read. -/
def typeIs (r : Json) (t : String) : Bool :=
  typeIsOpt (prop r "type") t

/-- Whether a value is a JSON object. -/
def isObj : Json → Bool
  | .obj _ => true
  | _ => false

/-- Whether a value is JSON `null`. -/
def isNull : Json → Bool
  | .null => true
  | _ => false

/-- The element list of a value when it is an array (`Array.isArray`
test combined with the use of the array). -/
def asArr : Json → Option (List Json)
  | .arr l => some l
  | _ => none

/-- App.tsx lines 242-248: take `rawData.costCenters` when it is a truthy
array, else `rawData` itself when it is an array, else throw the
invalid-structure error.  Reading `.costCenters` from `null` throws a
`TypeError` before any of those tests run.  (A present `costCenters`
array is necessarily truthy, so the truthiness conjunct adds nothing.) -/
def extractCenters (raw : Json) : Except JsErr (List Json) :=
  if isNull raw then .error .typeError
  else
    match prop raw "costCenters" with
    | some (.arr l) => .ok l
    | _ =>
      match asArr raw with
      | some l => .ok l
      | none => .error .invalidStructure

/-- App.tsx line 252: the per-record check
`!center.id || !center.name || !center.state || !Array.isArray(center.resources)`
fails the record (all four reads are on the same value, so a `null`
record throws before this predicate applies). -/
def validCenter (c : Json) : Bool :=
  truthyOpt (prop c "id") && truthyOpt (prop c "name") &&
    truthyOpt (prop c "state") && isArrOpt (prop c "resources")

/-- App.tsx lines 251-256: `costCenters.map((center, index) => ...)`,
throwing `Invalid cost center at index ${index}` at the first failing
record and returning each record unchanged. -/
def validateFrom (i : Nat) : List Json → Except JsErr (List Json)
  | [] => .ok []
  | c :: rest =>
    if isNull c then .error .typeError
    else if validCenter c then
      match validateFrom (i + 1) rest with
      | .error e => .error e
      | .ok rest' => .ok (c :: rest')
    else .error (.invalidCenter i)

/-- `center.resources` prepared for iteration: the code then calls an
array method on it, which throws a `TypeError` unless it is an array. -/
def resourcesOf? (c : Json) : Except JsErr (List Json) :=
  match getProp c "resources" with
  | .error e => .error e
  | .ok (some (.arr l)) => .ok l
  | .ok _ => .error .typeError

/-- The `resources` list of a record, `[]` when absent or not an array
(used only to state counts; the executable pipeline uses `resourcesOf?`). -/
def resourcesOfD (c : Json) : List Json :=
  match prop c "resources" with
  | some (.arr l) => l
  | _ => []

/-- App.tsx lines 268-280: one pass over a resource list, incrementing
one of three counters per resource `type`; unrecognized types fall
through the `switch`.  Reading `.type` from a `null` entry throws. -/
def aggResources (o r u : Nat) : List Json → Except JsErr (Nat × Nat × Nat)
  | [] => .ok (o, r, u)
  | res :: rest =>
    match getProp res "type" with
    | .error e => .error e
    | .ok t =>
      match t with
      | some (.str "Org") => aggResources (o + 1) r u rest
      | some (.str "Repo") => aggResources o (r + 1) u rest
      | some (.str "User") => aggResources o r (u + 1) rest
      | _ => aggResources o r u rest

/-- App.tsx lines 267-281: `activeCostCenters.forEach(center =>
center.resources.forEach(...))` threading the three counters. -/
def aggCenters (o r u : Nat) : List Json → Except JsErr (Nat × Nat × Nat)
  | [] => .ok (o, r, u)
  | c :: rest =>
    match resourcesOf? c with
    | .error e => .error e
    | .ok rs =>
      match aggResources o r u rs with
      | .error e => .error e
      | .ok (o', r', u') => aggCenters o' r' u' rest

/-- The `summary` object of `ParsedData` (App.tsx lines 32-38). -/
structure Summary where
  totalActive : Nat
  totalDeleted : Nat
  totalOrganizations : Nat
  totalRepositories : Nat
  totalMembers : Nat
deriving DecidableEq, Repr

/-- The result of `processJsonData` (App.tsx lines 28-39), with the
records still in their raw JSON form (the code never rebuilds them). -/
structure ParsedData where
  costCenters : List Json
  activeCostCenters : List Json
  deletedCostCenters : List Json
  summary : Summary

/-- App.tsx lines 238-295: structure extraction, per-record validation,
partition by `state`, and the aggregate pass over active centers. -/
def processJsonData (raw : Json) : Except JsErr ParsedData :=
  match extractCenters raw with
  | .error e => .error e
  | .ok costCenters =>
    match validateFrom 0 costCenters with
    | .error e => .error e
    | .ok processedCenters =>
      let activeCostCenters := processedCenters.filter fun c => stateIs c "active"
      let deletedCostCenters := processedCenters.filter fun c => stateIs c "deleted"
      match aggCenters 0 0 0 activeCostCenters with
      | .error e => .error e
      | .ok (totalOrganizations, totalRepositories, totalMembers) =>
        .ok { costCenters := processedCenters
              activeCostCenters := activeCostCenters
              deletedCostCenters := deletedCostCenters
              summary := { totalActive := activeCostCenters.length
                           totalDeleted := deletedCostCenters.length
                           totalOrganizations := totalOrganizations
                           totalRepositories := totalRepositories
                           totalMembers := totalMembers } }

/-- Number of entries of a resource list whose `type` strictly equals
`t` (the specification-level count: a pure full scan). -/
def countTypeIn (rs : List Json) (t : String) : Nat :=
  (rs.filter fun r => typeIs r t).length

/-- Total number of resources of type `t` across a list of centers. -/
def totalTypeIn (centers : List Json) (t : String) : Nat :=
  (centers.map fun c => countTypeIn (resourcesOfD c) t).sum

/-- `center.resources.filter(r => r.type === t).length` over raw records
(App.tsx lines 490-492 applied to loaded data): reading `.type` from a
`null` entry throws a `TypeError`. -/
def countType (rs : List Json) (t : String) : Except JsErr Nat :=
  match rs with
  | [] => .ok 0
  | res :: rest =>
    match getProp res "type" with
    | .error e => .error e
    | .ok v =>
      match countType rest t with
      | .error e => .error e
      | .ok n => .ok (if typeIsOpt v t then n + 1 else n)

/-- App.tsx lines 489-494: `getResourceCounts` returns the counts
`{ orgs, repos, members }` of one center's resources by type. -/
def getResourceCounts (c : Json) : Except JsErr (Nat × Nat × Nat) :=
  match resourcesOf? c with
  | .error e => .error e
  | .ok rs =>
    match countType rs "Org" with
    | .error e => .error e
    | .ok o =>
      match countType rs "Repo" with
      | .error e => .error e
      | .ok r =>
        match countType rs "User" with
        | .error e => .error e
        | .ok u => .ok (o, r, u)

/-- The pure value of `getResourceCounts` on a record whose resource
entries are all non-null. -/
def resourceCountsOf (c : Json) : Nat × Nat × Nat :=
  (countTypeIn (resourcesOfD c) "Org", countTypeIn (resourcesOfD c) "Repo",
    countTypeIn (resourcesOfD c) "User")

/-- Replace the first binding of a key, or append a new one (the effect
of `{...center, k: v}` on an object's fields). -/
def setAssoc : List (String × Json) → String → Json → List (String × Json)
  | [], k, v => [(k, v)]
  | (k', v') :: rest, k, v =>
    if k' == k then (k, v) :: rest else (k', v') :: setAssoc rest k v

/-- Object spread plus one literal key, `{...center, k: v}`.  Spreading
a primitive contributes no own enumerable properties; that branch is
unreachable here because all exported records are objects. -/
def setField (c : Json) (k : String) (v : Json) : Json :=
  match c with
  | .obj fields => .obj (setAssoc fields k v)
  | _ => .obj [(k, v)]

/-- The `{ orgs, repos, members }` object added per exported record. -/
def resourceCountsJson (o r u : Nat) : Json :=
  .obj [("orgs", .num o), ("repos", .num r), ("members", .num u)]

/-- The `summary` object serialized into the JSON report. -/
def summaryJson (s : Summary) : Json :=
  .obj [("totalActive", .num s.totalActive), ("totalDeleted", .num s.totalDeleted),
    ("totalOrganizations", .num s.totalOrganizations),
    ("totalRepositories", .num s.totalRepositories),
    ("totalMembers", .num s.totalMembers)]

/-- App.tsx lines 579-582: `costCenters.map(center => ({...center,
resourceCounts: getResourceCounts(center)}))`. -/
def exportCenters : List Json → Except JsErr (List Json)
  | [] => .ok []
  | c :: rest =>
    match getResourceCounts c with
    | .error e => .error e
    | .ok (o, r, u) =>
      match exportCenters rest with
      | .error e => .error e
      | .ok rest' =>
        .ok (setField c "resourceCounts" (resourceCountsJson o r u) :: rest')

/-- App.tsx lines 576-583: the JSON report document `{ generatedAt,
summary, costCenters }` (the timestamp is a parameter; serialization to
text and the download are I/O outside the pipeline). -/
def exportReportJson (d : ParsedData) (generatedAt : String) : Except JsErr Json :=
  match exportCenters d.costCenters with
  | .error e => .error e
  | .ok centers =>
    .ok (.obj [("generatedAt", .str generatedAt), ("summary", summaryJson d.summary),
      ("costCenters", .arr centers)])

/-- App.tsx lines 598-606: the fixed CSV header row. -/
def csvHeaders : List String :=
  ["Cost Center Name", "Cost Center ID", "State", "Total Resources",
    "Organizations", "Repositories", "Members"]

mutual
/-- JS `ToString` of a value, as used by template literals and
`Array.prototype.join`. -/
def jsToString : Json → String
  | .null => "null"
  | .bool b => cond b "true" "false"
  | .num n => toString n
  | .str s => s
  | .arr l => jsArrToString l
  | .obj _ => "[object Object]"

/-- `Array.prototype.toString` = `join(",")`, rendering `null` as "". -/
def jsArrToString : List Json → String
  | [] => ""
  | [.null] => ""
  | [x] => jsToString x
  | .null :: rest => "," ++ jsArrToString rest
  | x :: rest => jsToString x ++ "," ++ jsArrToString rest
end

/-- JS `ToString` of a possibly-undefined property value. -/
def jsToStringOpt : Option Json → String
  | none => "undefined"
  | some v => jsToString v

/-- App.tsx lines 608-620: one CSV row — `getResourceCounts(center)`,
then the cells `"name"` (quoted by the template literal), raw `id`, raw
`state`, `resources.length`, and the three counts, joined by commas. -/
def csvRow (c : Json) : Except JsErr String :=
  match getResourceCounts c with
  | .error e => .error e
  | .ok (o, r, u) =>
    match resourcesOf? c with
    | .error e => .error e
    | .ok rs =>
      .ok (String.intercalate ","
        ["\"" ++ jsToStringOpt (prop c "name") ++ "\"",
          jsToStringOpt (prop c "id"), jsToStringOpt (prop c "state"),
          toString rs.length, toString o, toString r, toString u])

/-- `jsonData.costCenters.map(...)` building all CSV rows in order. -/
def csvRows : List Json → Except JsErr (List String)
  | [] => .ok []
  | c :: rest =>
    match csvRow c with
    | .error e => .error e
    | .ok row =>
      match csvRows rest with
      | .error e => .error e
      | .ok rows => .ok (row :: rows)

/-- App.tsx line 622: `[headers.join(','), ...rows].join('\n')` — the
complete CSV text over the full cost-center list. -/
def exportReportCsv (d : ParsedData) : Except JsErr String :=
  match csvRows d.costCenters with
  | .error e => .error e
  | .ok rows => .ok (String.intercalate "\n" (String.intercalate "," csvHeaders :: rows))

/-- The typed `Resource` interface (App.tsx lines 16-19).  The `type`
field is kept as a string because the filter and count code compares it
with `===` against literals. -/
structure Resource where
  type : String
  name : String
deriving DecidableEq, Repr

/-- The typed `CostCenter` interface (App.tsx lines 21-26) as the
filter/sort engine sees it. -/
structure CostCenter where
  id : String
  name : String
  state : String
  resources : List Resource
deriving DecidableEq, Repr

/-- `hay.includes(needle)`: `needle` occurs contiguously in `hay`. -/
def includes (hay needle : String) : Bool :=
  decide (needle.data <:+: hay.data)

/-- `getResourceCounts` on a typed center: the three by-type counts
`(orgs, repos, members)` (App.tsx lines 489-494). -/
def getResourceCountsT (c : CostCenter) : Nat × Nat × Nat :=
  ((c.resources.filter fun r => r.type == "Org").length,
    (c.resources.filter fun r => r.type == "Repo").length,
    (c.resources.filter fun r => r.type == "User").length)

/-- The five values of the `sortBy` state (App.tsx line 62). -/
inductive SortKey where
  | name
  | totalResources
  | orgs
  | repos
  | users
deriving DecidableEq, Repr

/-- The comparator of App.tsx lines 540-558 as a `≤`-test: `le a b` iff
the comparator returns a non-positive number on `(a, b)`.  `name` uses
`localeCompare`, modelled as the lexicographic order on strings; the
numeric branches return differences, so `le` compares the counts in the
descending direction. -/
def sortLe (sb : SortKey) (a b : CostCenter) : Bool :=
  match sb with
  | .name => decide (a.name ≤ b.name)
  | .totalResources => decide (b.resources.length ≤ a.resources.length)
  | .orgs => decide ((getResourceCountsT b).1 ≤ (getResourceCountsT a).1)
  | .repos => decide ((getResourceCountsT b).2.1 ≤ (getResourceCountsT a).2.1)
  | .users => decide ((getResourceCountsT b).2.2 ≤ (getResourceCountsT a).2.2)

/-- `filtered.sort(comparator)`: a stable sort by the comparator
(modern `Array.prototype.sort` is stable; `mergeSort` models it). -/
def sortCostCenters (sb : SortKey) (l : List CostCenter) : List CostCenter :=
  l.mergeSort (sortLe sb)

/-- App.tsx lines 514-561: the filter/sort engine over the active list —
the search, resource-type, and has-resources predicates ANDed in one
`filter` pass, then the sort. -/
def filteredAndSortedCostCenters (active : List CostCenter) (searchQuery : String)
    (resourceTypeFilter : String) (hasResourcesFilter : String) (sortBy : SortKey) :
    List CostCenter :=
  let filtered := active.filter fun center =>
    let searchLower := searchQuery.toLower
    let matchesSearch := searchQuery == "" ||
      includes center.name.toLower searchLower ||
      includes center.id.toLower searchLower ||
      center.resources.any fun resource => includes resource.name.toLower searchLower
    let matchesResourceType := resourceTypeFilter == "all" ||
      center.resources.any fun resource => resource.type == resourceTypeFilter
    let matchesHasResources := hasResourcesFilter == "all" ||
      (hasResourcesFilter == "with-resources" && decide (0 < center.resources.length)) ||
      (hasResourcesFilter == "empty" && center.resources.length == 0)
    matchesSearch && matchesResourceType && matchesHasResources
  sortCostCenters sortBy filtered

/-- The shape one CSV data row provably takes (to be compared with the
output of `csvRow`): only the name cell is wrapped in double quotes. -/
def csvRowSpec (c : Json) : String :=
  String.intercalate ","
    ["\"" ++ jsToStringOpt (prop c "name") ++ "\"",
      jsToStringOpt (prop c "id"), jsToStringOpt (prop c "state"),
      toString (resourcesOfD c).length,
      toString (countTypeIn (resourcesOfD c) "Org"),
      toString (countTypeIn (resourcesOfD c) "Repo"),
      toString (countTypeIn (resourcesOfD c) "User")]

/-- A property value that is present and equal to the empty string. -/
def isEmptyStrOpt : Option Json → Bool
  | some (.str s) => s == ""
  | _ => false

/-- Some mandatory scalar field (`id`, `name`, `state`) is present but
equal to `""`. -/
def hasEmptyMandatoryField (c : Json) : Bool :=
  isEmptyStrOpt (prop c "id") || isEmptyStrOpt (prop c "name") ||
    isEmptyStrOpt (prop c "state")

/-- First record of the worked example of spec §8. -/
def exA : Json :=
  .obj [("id", .str "A"), ("name", .str "Zeta"), ("state", .str "active"),
    ("resources", .arr [.obj [("type", .str "Org"), ("name", .str "o1")]])]

/-- Second record of the worked example of spec §8. -/
def exB : Json :=
  .obj [("id", .str "B"), ("name", .str "Alpha"), ("state", .str "active"),
    ("resources", .arr [])]

/-- Third record of the worked example of spec §8. -/
def exC : Json :=
  .obj [("id", .str "C"), ("name", .str "Old"), ("state", .str "deleted"),
    ("resources", .arr [])]

/-- The worked example document of spec §8. -/
def exDoc : Json := .obj [("costCenters", .arr [exA, exB, exC])]

/-- What `processJsonData` returns on `exDoc`. -/
def exParsed : ParsedData :=
  { costCenters := [exA, exB, exC]
    activeCostCenters := [exA, exB]
    deletedCostCenters := [exC]
    summary := { totalActive := 2, totalDeleted := 1, totalOrganizations := 1,
                 totalRepositories := 0, totalMembers := 0 } }

/-- A record whose `state` is neither `active` nor `deleted` but truthy. -/
def pendCenter : Json :=
  .obj [("id", .str "cc-1"), ("name", .str "Pending"), ("state", .str "pending"),
    ("resources", .arr [])]

/-- A document whose single record has state `pending`. -/
def pendDoc : Json := .arr [pendCenter]

/-- What `processJsonData` returns on `pendDoc`: the record lands in
neither the active nor the deleted view. -/
def pendParsed : ParsedData :=
  { costCenters := [pendCenter], activeCostCenters := [], deletedCostCenters := []
    summary := { totalActive := 0, totalDeleted := 0, totalOrganizations := 0,
                 totalRepositories := 0, totalMembers := 0 } }

/-- A record with every mandatory field present but `id` equal to `""`. -/
def emptyIdCenter : Json :=
  .obj [("id", .str ""), ("name", .str "Payroll"), ("state", .str "active"),
    ("resources", .arr [])]

/-- A document whose single record has all four fields, with `id` empty. -/
def emptyIdDoc : Json := .arr [emptyIdCenter]

/-- A fully valid record. -/
def okCenter : Json :=
  .obj [("id", .str "A1"), ("name", .str "Ops"), ("state", .str "active"),
    ("resources", .arr [])]

/-- A record lacking its `resources` array. -/
def missingResCenter : Json :=
  .obj [("id", .str "B1"), ("name", .str "NoRes"), ("state", .str "active")]

/-- A record whose `state` is present but empty. -/
def emptyStateCenter : Json :=
  .obj [("id", .str "C9"), ("name", .str "X"), ("state", .str ""),
    ("resources", .arr [])]

/-- A deleted record carrying a `null` resource entry (never touched by
the aggregate pass, which only walks active centers). -/
def delNullCenter : Json :=
  .obj [("id", .str "d1"), ("name", .str "Legacy"), ("state", .str "deleted"),
    ("resources", .arr [.null])]

/-- A document that loads successfully yet breaks the export path. -/
def delNullDoc : Json := .obj [("costCenters", .arr [delNullCenter])]

/-- What `processJsonData` returns on `delNullDoc`. -/
def delNullParsed : ParsedData :=
  { costCenters := [delNullCenter], activeCostCenters := []
    deletedCostCenters := [delNullCenter]
    summary := { totalActive := 0, totalDeleted := 1, totalOrganizations := 0,
                 totalRepositories := 0, totalMembers := 0 } }

/-- What `processJsonData` returns on `.arr [okCenter]`. -/
def okParsed : ParsedData :=
  { costCenters := [okCenter], activeCostCenters := [okCenter]
    deletedCostCenters := []
    summary := { totalActive := 1, totalDeleted := 0, totalOrganizations := 0,
                 totalRepositories := 0, totalMembers := 0 } }

/-- The CSV text the code produces for `okParsed`. -/
def okCsv : String :=
  "Cost Center Name,Cost Center ID,State,Total Resources,Organizations,Repositories,Members\n\"Ops\",A1,active,0,0,0,0"

/-- The CSV text the claim's quoting rule would require for `okParsed`
(every string field double-quoted). -/
def okCsvAllQuoted : String :=
  "Cost Center Name,Cost Center ID,State,Total Resources,Organizations,Repositories,Members\n\"Ops\",\"A1\",\"active\",0,0,0,0"

/-- Whether a pipeline outcome is the per-record validation error
("Invalid cost center at index ..."), at any index. -/
def isInvalidCenterError : Except JsErr ParsedData → Bool
  | .error (.invalidCenter _) => true
  | _ => false

theorem getProp_eq {v : Json} (h : isNull v = false) (k : String) :
    getProp v k = .ok (prop v k) := by
  cases v <;> simp_all [getProp, prop, isNull]

theorem getProp_ok_prop {v : Json} {k : String} {t : Option Json}
    (h : getProp v k = .ok t) : t = prop v k := by
  cases v <;> simp_all [getProp, prop]

theorem validCenter_obj {c : Json} (h : validCenter c = true) : isObj c = true := by
  cases c <;> simp_all [validCenter, prop, truthyOpt, isObj]

theorem validCenter_not_null {c : Json} (h : validCenter c = true) : isNull c = false := by
  cases c <;> simp_all [validCenter, prop, truthyOpt, isNull]

theorem validCenter_resources {c : Json} (h : validCenter c = true) :
    prop c "resources" = some (.arr (resourcesOfD c)) := by
  have : isArrOpt (prop c "resources") = true := by
    have h' := h
    simp only [validCenter, Bool.and_eq_true] at h'
    exact h'.2
  unfold resourcesOfD
  cases hp : prop c "resources" with
  | none => rw [hp] at this; simp [isArrOpt] at this
  | some v =>
    cases v <;> rw [hp] at this <;> simp_all [isArrOpt]

theorem validateFrom_ok_eq {l : List Json} : ∀ {i : Nat} {l' : List Json},
    validateFrom i l = .ok l' → l' = l := by
  induction l with
  | nil => intro i l' h; simp [validateFrom] at h; exact h
  | cons c rest ih =>
    intro i l' h
    simp only [validateFrom] at h
    split at h
    · exact absurd h (by simp)
    · split at h
      · split at h
        · exact absurd h (by simp)
        · next rest' heq =>
          have hr := ih heq
          subst hr
          simpa using h.symm
      · exact absurd h (by simp)

theorem validateFrom_ok_all_valid {l : List Json} : ∀ {i : Nat} {l' : List Json},
    validateFrom i l = .ok l' → ∀ c ∈ l, validCenter c = true := by
  induction l with
  | nil => intro i l' _ c hc; cases hc
  | cons c rest ih =>
    intro i l' h d hd
    simp only [validateFrom] at h
    split at h
    · exact absurd h (by simp)
    · split at h
      · split at h
        · exact absurd h (by simp)
        · next rest' heq =>
          rcases List.mem_cons.mp hd with rfl | hd'
          · assumption
          · exact ih heq d hd'
      · exact absurd h (by simp)

theorem validateFrom_ok_of_all_valid {l : List Json} : ∀ {i : Nat},
    (∀ c ∈ l, validCenter c = true) → validateFrom i l = .ok l := by
  induction l with
  | nil => intro i _; simp [validateFrom]
  | cons c rest ih =>
    intro i hall
    have hc : validCenter c = true := hall c (List.mem_cons_self c rest)
    have hrest := ih (i := i + 1) fun d hd => hall d (List.mem_cons_of_mem c hd)
    simp [validateFrom, validCenter_not_null hc, hc, hrest]

theorem validateFrom_eq_findIdx {l : List Json} (hl : ∀ c ∈ l, isNull c = false) :
    ∀ i : Nat, validateFrom i l =
      match l.findIdx? (fun c => !validCenter c) with
      | none => .ok l
      | some j => .error (.invalidCenter (i + j)) := by
  induction l with
  | nil => intro i; simp [validateFrom]
  | cons c rest ih =>
    intro i
    have hc : isNull c = false := hl c (List.mem_cons_self c rest)
    have hrest := ih fun d hd => hl d (List.mem_cons_of_mem c hd)
    by_cases hv : validCenter c = true
    · have hfind : (c :: rest).findIdx? (fun c => !validCenter c) =
          (rest.findIdx? (fun c => !validCenter c)).map (· + 1) := by
        simp [List.findIdx?_cons, hv, List.findIdx?_succ]
      rw [hfind]
      simp only [validateFrom, hc, hv, if_false, if_true, Bool.false_eq_true]
      rw [hrest (i + 1)]
      cases hres : rest.findIdx? (fun c => !validCenter c) with
      | none => simp
      | some j => simp [Nat.add_assoc, Nat.add_comm 1 j]
    · have hv' : validCenter c = false := by simpa using hv
      have hfind : (c :: rest).findIdx? (fun c => !validCenter c) = some 0 := by
        simp [List.findIdx?_cons, hv']
      rw [hfind]
      simp [validateFrom, hc, hv']


theorem countTypeIn_cons (res : Json) (rest : List Json) (t : String) :
    countTypeIn (res :: rest) t = (if typeIs res t then 1 else 0) + countTypeIn rest t := by
  simp only [countTypeIn, List.filter_cons]
  split <;> simp [Nat.add_comm]

theorem resourcesOf?_ok {c : Json} {rs : List Json} (h : resourcesOf? c = .ok rs) :
    resourcesOfD c = rs := by
  unfold resourcesOf? at h
  cases hg : getProp c "resources" with
  | error e => rw [hg] at h; simp at h
  | ok t =>
    rw [hg] at h
    have ht := getProp_ok_prop hg
    unfold resourcesOfD
    rw [← ht]
    cases t with
    | none => simp at h
    | some v => cases v <;> simp_all

theorem resourcesOf?_of_valid {c : Json} (h : validCenter c = true) :
    resourcesOf? c = .ok (resourcesOfD c) := by
  unfold resourcesOf?
  rw [getProp_eq (validCenter_not_null h), validCenter_resources h]

theorem typeIsOpt_ne {t : Option Json} {s : String} (h : t = some (.str s) → False) :
    typeIsOpt t s = false := by
  cases t with
  | none => rfl
  | some v =>
    cases v with
    | null => rfl
    | bool b => rfl
    | num n => rfl
    | str s0 =>
      have hne : s0 ≠ s := fun hc => h (by rw [hc])
      simp [typeIsOpt, hne]
    | arr l => rfl
    | obj fields => rfl

theorem aggResources_ok {rs : List Json} : ∀ {o r u o' r' u' : Nat},
    aggResources o r u rs = .ok (o', r', u') →
    o' = o + countTypeIn rs "Org" ∧ r' = r + countTypeIn rs "Repo" ∧
      u' = u + countTypeIn rs "User" := by
  induction rs with
  | nil =>
    intro o r u o' r' u' h
    simp [aggResources] at h
    simp [countTypeIn]
    omega
  | cons res rest ih =>
    intro o r u o' r' u' h
    simp only [aggResources] at h
    cases hg : getProp res "type" with
    | error e => rw [hg] at h; simp at h
    | ok t =>
      rw [hg] at h
      have ht : t = prop res "type" := getProp_ok_prop hg
      have htypeIs : ∀ s, typeIs res s = typeIsOpt t s := by
        intro s; rw [typeIs, ← ht]
      split at h
      · simp at h
      · next t2 heq =>
        have ht2 : t2 = t := by injection heq.symm
        subst ht2
        split at h
        · obtain ⟨h1, h2, h3⟩ := ih h
          simp [countTypeIn_cons, htypeIs, typeIsOpt]
          omega
        · obtain ⟨h1, h2, h3⟩ := ih h
          simp [countTypeIn_cons, htypeIs, typeIsOpt]
          omega
        · obtain ⟨h1, h2, h3⟩ := ih h
          simp [countTypeIn_cons, htypeIs, typeIsOpt]
          omega
        · rename_i hne1 hne2 hne3
          obtain ⟨h1, h2, h3⟩ := ih h
          simp [countTypeIn_cons, htypeIs, typeIsOpt_ne hne1, typeIsOpt_ne hne2,
            typeIsOpt_ne hne3]
          omega


theorem totalTypeIn_cons (c : Json) (rest : List Json) (t : String) :
    totalTypeIn (c :: rest) t = countTypeIn (resourcesOfD c) t + totalTypeIn rest t := by
  simp [totalTypeIn]

theorem aggCenters_ok {cs : List Json} : ∀ {o r u o' r' u' : Nat},
    aggCenters o r u cs = .ok (o', r', u') →
    o' = o + totalTypeIn cs "Org" ∧ r' = r + totalTypeIn cs "Repo" ∧
      u' = u + totalTypeIn cs "User" := by
  induction cs with
  | nil =>
    intro o r u o' r' u' h
    simp [aggCenters] at h
    simp [totalTypeIn]
    omega
  | cons c rest ih =>
    intro o r u o' r' u' h
    simp only [aggCenters] at h
    split at h
    · simp at h
    · next rs heq =>
      split at h
      · simp at h
      · next o1 r1 u1 heq2 =>
        have hrs := resourcesOf?_ok heq
        obtain ⟨a1, a2, a3⟩ := aggResources_ok heq2
        obtain ⟨b1, b2, b3⟩ := ih h
        rw [← hrs] at a1 a2 a3
        simp [totalTypeIn_cons]
        omega

theorem processJsonData_ok_inv {d : Json} {p : ParsedData} (h : processJsonData d = .ok p) :
    extractCenters d = .ok p.costCenters ∧
    validateFrom 0 p.costCenters = .ok p.costCenters ∧
    p.activeCostCenters = p.costCenters.filter (fun c => stateIs c "active") ∧
    p.deletedCostCenters = p.costCenters.filter (fun c => stateIs c "deleted") ∧
    aggCenters 0 0 0 p.activeCostCenters =
      .ok (p.summary.totalOrganizations, p.summary.totalRepositories,
        p.summary.totalMembers) ∧
    p.summary.totalActive = p.activeCostCenters.length ∧
    p.summary.totalDeleted = p.deletedCostCenters.length := by
  unfold processJsonData at h
  split at h
  · simp at h
  · next centers hE =>
    split at h
    · simp at h
    · next processed hV =>
      have hpc : processed = centers := validateFrom_ok_eq hV
      subst hpc
      dsimp only at h
      split at h
      · simp at h
      · next o1 r1 u1 hA =>
        have hp : p = ⟨processed,
            List.filter (fun c => stateIs c "active") processed,
            List.filter (fun c => stateIs c "deleted") processed,
            ⟨(List.filter (fun c => stateIs c "active") processed).length,
              (List.filter (fun c => stateIs c "deleted") processed).length,
              o1, r1, u1⟩⟩ := by
          injection h with h1
          exact h1.symm
        subst hp
        exact ⟨hE, hV, rfl, rfl, hA, rfl, rfl⟩

/-- C1: for every validated document, the summary produced by
`processJsonData` counts exactly the resources of type `Org` / `Repo` /
`User` across active cost centers (so unrecognized resource types and
resources of deleted centers contribute to no total). -/
theorem summary_counts_by_type (d : Json) (p : ParsedData)
    (h : processJsonData d = .ok p) :
    p.summary.totalOrganizations = totalTypeIn p.activeCostCenters "Org" ∧
    p.summary.totalRepositories = totalTypeIn p.activeCostCenters "Repo" ∧
    p.summary.totalMembers = totalTypeIn p.activeCostCenters "User" := by
  obtain ⟨-, -, -, -, hA, -, -⟩ := processJsonData_ok_inv h
  obtain ⟨a1, a2, a3⟩ := aggCenters_ok hA
  omega

/-- Witness for C1 at the worked example document of spec §8. -/
theorem summary_counts_by_type_witness :
    processJsonData exDoc = .ok exParsed ∧
    (exParsed.summary.totalOrganizations = totalTypeIn exParsed.activeCostCenters "Org" ∧
     exParsed.summary.totalRepositories = totalTypeIn exParsed.activeCostCenters "Repo" ∧
     exParsed.summary.totalMembers = totalTypeIn exParsed.activeCostCenters "User") :=
  ⟨rfl, summary_counts_by_type exDoc exParsed rfl⟩

/-- C2 (counterexample): a record whose `state` is `"pending"` is
accepted by validation yet lands in neither the active nor the deleted
view, so the two views do not cover the full list. -/
theorem partition_counterexample :
    processJsonData pendDoc = .ok pendParsed ∧
    pendCenter ∈ pendParsed.costCenters ∧
    pendCenter ∉ pendParsed.activeCostCenters ∧
    pendCenter ∉ pendParsed.deletedCostCenters :=
  ⟨rfl, by simp [pendParsed], by simp [pendParsed], by simp [pendParsed]⟩

/-- C2 (amended): the two views never overlap, and a cost center of the
full list appears in the active (resp. deleted) view exactly when its
`state` strictly equals `"active"` (resp. `"deleted"`); records with any
other `state` appear in neither, so the views partition the full list
exactly when every `state` is one of the two. -/
theorem partition_amended (d : Json) (p : ParsedData)
    (h : processJsonData d = .ok p) :
    (∀ c, c ∈ p.activeCostCenters ↔ c ∈ p.costCenters ∧ stateIs c "active" = true) ∧
    (∀ c, c ∈ p.deletedCostCenters ↔ c ∈ p.costCenters ∧ stateIs c "deleted" = true) ∧
    (∀ c, c ∈ p.activeCostCenters → c ∉ p.deletedCostCenters) := by
  obtain ⟨-, -, hact, hdel, -, -, -⟩ := processJsonData_ok_inv h
  refine ⟨?_, ?_, ?_⟩
  · intro c; rw [hact, List.mem_filter]
  · intro c; rw [hdel, List.mem_filter]
  · intro c hca hcd
    rw [hact, List.mem_filter] at hca
    rw [hdel, List.mem_filter] at hcd
    have h1 := hca.2
    have h2 := hcd.2
    unfold stateIs at h1 h2
    cases hp : prop c "state" with
    | none => rw [hp] at h1; simp at h1
    | some v =>
      rw [hp] at h1 h2
      cases v <;> simp at h1 h2
      next s => rw [h1] at h2; exact absurd h2 (by decide)

/-- Witness for C2 (amended) at the `pending`-state document. -/
theorem partition_amended_witness :
    pendCenter ∈ pendParsed.activeCostCenters ↔
      pendCenter ∈ pendParsed.costCenters ∧ stateIs pendCenter "active" = true :=
  (partition_amended pendDoc pendParsed rfl).1 pendCenter

/-- C10: `processJsonData` preserves input order — the returned
`costCenters` list is exactly the extracted record list, and the active
(resp. deleted) view is exactly its `state = "active"` (resp.
`"deleted"`) filtered subsequence. -/
theorem preserves_input_order (d : Json) (l : List Json) (p : ParsedData)
    (h1 : extractCenters d = .ok l) (h2 : processJsonData d = .ok p) :
    p.costCenters = l ∧
    p.activeCostCenters = l.filter (fun c => stateIs c "active") ∧
    p.deletedCostCenters = l.filter (fun c => stateIs c "deleted") := by
  obtain ⟨hE, -, hact, hdel, -, -, -⟩ := processJsonData_ok_inv h2
  have hl : l = p.costCenters := by
    have := h1.symm.trans hE
    injection this
  subst hl
  exact ⟨rfl, hact, hdel⟩

/-- Witness for C10 at the worked example document. -/
theorem preserves_input_order_witness :
    exParsed.costCenters = [exA, exB, exC] ∧
    exParsed.activeCostCenters = [exA, exB, exC].filter (fun c => stateIs c "active") ∧
    exParsed.deletedCostCenters = [exA, exB, exC].filter (fun c => stateIs c "deleted") :=
  preserves_input_order exDoc [exA, exB, exC] exParsed rfl rfl

/-- C4 (counterexample): `processJsonData` on JSON `null` throws the
property-access `TypeError`, not the invalid-structure error the claim
names for every unrecognized input. -/
theorem null_input_type_error :
    processJsonData Json.null = .error .typeError ∧
    JsErr.typeError ≠ JsErr.invalidStructure :=
  ⟨rfl, by decide⟩

/-- C4 (amended): the cost-center list comes from the `costCenters`
array property when present, else from the value itself when it is a
bare array; every other non-null value fails with the invalid-structure
error, while `null` fails with a `TypeError`; any extraction error is
returned by `processJsonData` unchanged (no result is produced). -/
theorem structure_extraction_cases (raw : Json) :
    extractCenters raw = (match raw with
      | .null => .error .typeError
      | .arr l => .ok l
      | .obj fields =>
        match lookupField fields "costCenters" with
        | some (.arr l) => .ok l
        | _ => .error .invalidStructure
      | _ => .error .invalidStructure) ∧
    ∀ e, extractCenters raw = .error e → processJsonData raw = .error e := by
  constructor
  · cases raw with
    | obj fields =>
      cases hlf : lookupField fields "costCenters" with
      | none => simp [extractCenters, isNull, prop, asArr, hlf]
      | some v => cases v <;> simp [extractCenters, isNull, prop, asArr, hlf]
    | _ => simp [extractCenters, isNull, prop, asArr]
  · intro e he
    unfold processJsonData
    rw [he]

/-- Witness for C4 (amended): a bare string fails with the
invalid-structure error and `processJsonData` propagates it. -/
theorem structure_extraction_cases_witness :
    processJsonData (Json.str "x") = .error .invalidStructure :=
  (structure_extraction_cases (Json.str "x")).2 .invalidStructure rfl

theorem isNull_false_of_isObj {c : Json} (h : isObj c = true) : isNull c = false := by
  cases c <;> simp_all [isObj, isNull]

theorem truthyOpt_of_emptyStr {v : Option Json} (h : isEmptyStrOpt v = true) :
    truthyOpt v = false := by
  cases v with
  | none => simp [isEmptyStrOpt] at h
  | some x => cases x <;> simp_all [isEmptyStrOpt, truthyOpt, truthy]

/-- C3 (counterexample): a record with all four fields present but `id`
equal to the empty string is rejected (the claim predicts success when
every field is present). -/
theorem validation_rejects_empty_id :
    processJsonData emptyIdDoc = .error (.invalidCenter 0) ∧
    (processJsonData emptyIdDoc).isOk = false :=
  ⟨rfl, rfl⟩

/-- C3 (amended): over a list of object records, validation fails with
the error naming the index of the first record whose `id`, `name` or
`state` is absent or falsy or whose `resources` is not an array, and no
later record influences the result; when no record fails that check,
validation succeeds and returns the list unchanged. -/
theorem validation_first_invalid_index (records : List Json)
    (hobj : ∀ c ∈ records, isObj c = true) :
    (match records.findIdx? (fun c => !validCenter c) with
      | some i => processJsonData (.arr records) = .error (.invalidCenter i)
      | none => validateFrom 0 records = .ok records) := by
  have hnn : ∀ c ∈ records, isNull c = false := fun c hc =>
    isNull_false_of_isObj (hobj c hc)
  have hchar := validateFrom_eq_findIdx hnn 0
  cases hf : records.findIdx? (fun c => !validCenter c) with
  | none =>
    rw [hf] at hchar
    exact hchar
  | some i =>
    rw [hf] at hchar
    have hval : validateFrom 0 records = .error (.invalidCenter i) := by
      simpa using hchar
    have hx : extractCenters (.arr records) = .ok records := rfl
    unfold processJsonData
    rw [hx]
    dsimp only
    rw [hval]

/-- Witness for C3 (amended): the second record lacks `resources`, so
validation fails naming index 1. -/
theorem validation_first_invalid_index_witness :
    processJsonData (.arr [okCenter, missingResCenter]) = .error (.invalidCenter 1) :=
  validation_first_invalid_index [okCenter, missingResCenter] (by decide)

/-- C9: a document containing a record whose `id`, `name` or `state` is
present but equal to the empty string is rejected with the
"Invalid cost center at index" error (the truthiness check rejects
present-but-empty values, not only absent ones). -/
theorem empty_string_fields_rejected (records : List Json)
    (hobj : ∀ c ∈ records, isObj c = true)
    (hempty : records.any hasEmptyMandatoryField = true) :
    isInvalidCenterError (processJsonData (.arr records)) = true := by
  have hex : records.any (fun c => !validCenter c) = true := by
    rw [List.any_eq_true] at hempty ⊢
    obtain ⟨c, hc, hce⟩ := hempty
    refine ⟨c, hc, ?_⟩
    simp only [hasEmptyMandatoryField, Bool.or_eq_true] at hce
    have hvc : validCenter c = false := by
      rcases hce with (h1 | h1) | h1 <;>
        simp [validCenter, truthyOpt_of_emptyStr h1]
    simp [hvc]
  have hf : (records.findIdx? (fun c => !validCenter c)).isSome := by
    rw [List.findIdx?_isSome]
    exact hex
  obtain ⟨i, hi⟩ := Option.isSome_iff_exists.mp hf
  have hnn : ∀ c ∈ records, isNull c = false := fun c hc =>
    isNull_false_of_isObj (hobj c hc)
  have hchar := validateFrom_eq_findIdx hnn 0
  rw [hi] at hchar
  have hval : validateFrom 0 records = .error (.invalidCenter (0 + i)) := hchar
  unfold processJsonData
  rw [show extractCenters (.arr records) = .ok records from rfl]
  dsimp only
  rw [hval]
  simp [isInvalidCenterError]

/-- Witness for C9: the second record's `state` is present but empty. -/
theorem empty_string_fields_rejected_witness :
    isInvalidCenterError (processJsonData (.arr [okCenter, emptyStateCenter])) = true :=
  empty_string_fields_rejected [okCenter, emptyStateCenter] (by decide) (by decide)

/-- C7: sorting by `name` is idempotent — the name sort applied to the
(already name-sorted) output of the name sort returns it unchanged. -/
theorem sort_by_name_idempotent (l : List CostCenter) :
    sortCostCenters .name (sortCostCenters .name l) = sortCostCenters .name l := by
  unfold sortCostCenters
  apply List.mergeSort_of_sorted
  apply List.sorted_mergeSort
  · intro a b c hab hbc
    simp only [sortLe, decide_eq_true_eq] at *
    exact le_trans hab hbc
  · intro a b
    simp only [sortLe]
    rcases le_total a.name b.name with h | h
    · simp [h]
    · simp [h]

/-- C5: a cost center appears in the filter/sort engine's output iff it
is in the active list and satisfies the search predicate (empty query,
or case-insensitive substring of name, id, or some resource name), the
resource-type filter (`all`, or some resource of the selected type) and
the has-resources filter (`all`, or `with-resources` and nonempty, or
`empty` and empty) simultaneously. -/
theorem filter_engine_membership (active : List CostCenter) (q rt hr : String)
    (sb : SortKey) (c : CostCenter) :
    c ∈ filteredAndSortedCostCenters active q rt hr sb ↔
      (c ∈ active ∧
        (q = "" ∨ q.toLower.data <:+: c.name.toLower.data ∨
          q.toLower.data <:+: c.id.toLower.data ∨
          ∃ r ∈ c.resources, q.toLower.data <:+: r.name.toLower.data) ∧
        (rt = "all" ∨ ∃ r ∈ c.resources, r.type = rt) ∧
        (hr = "all" ∨ (hr = "with-resources" ∧ 0 < c.resources.length) ∨
          (hr = "empty" ∧ c.resources.length = 0))) := by
  unfold filteredAndSortedCostCenters sortCostCenters
  rw [List.Perm.mem_iff (List.mergeSort_perm _ _)]
  rw [List.mem_filter]
  simp [includes, List.any_eq_true]
  intro _
  tauto


theorem countType_ok {rs : List Json} (hnn : ∀ r ∈ rs, isNull r = false) (t : String) :
    countType rs t = .ok (countTypeIn rs t) := by
  induction rs with
  | nil => simp [countType, countTypeIn]
  | cons res rest ih =>
    have hre := ih fun r hr => hnn r (List.mem_cons_of_mem res hr)
    simp only [countType, getProp_eq (hnn res (List.mem_cons_self res rest)), hre]
    rw [countTypeIn_cons]
    unfold typeIs
    split
    · simp [Nat.add_comm]
    · simp

theorem getResourceCounts_ok {c : Json} (hv : validCenter c = true)
    (hnn : ∀ r ∈ resourcesOfD c, isNull r = false) :
    getResourceCounts c = .ok (resourceCountsOf c) := by
  unfold getResourceCounts
  rw [resourcesOf?_of_valid hv]
  dsimp only
  rw [countType_ok hnn]
  dsimp only
  rw [countType_ok hnn]
  dsimp only
  rw [countType_ok hnn]
  rfl

theorem csvRow_ok {c : Json} (hv : validCenter c = true)
    (hnn : ∀ r ∈ resourcesOfD c, isNull r = false) :
    csvRow c = .ok (csvRowSpec c) := by
  unfold csvRow
  rw [getResourceCounts_ok hv hnn]
  dsimp only
  rw [resourcesOf?_of_valid hv]
  rfl

theorem csvRows_ok {l : List Json} (hv : ∀ c ∈ l, validCenter c = true)
    (hnn : ∀ c ∈ l, ∀ r ∈ resourcesOfD c, isNull r = false) :
    csvRows l = .ok (l.map csvRowSpec) := by
  induction l with
  | nil => simp [csvRows]
  | cons c rest ih =>
    have hrest := ih (fun d hd => hv d (List.mem_cons_of_mem c hd))
      (fun d hd => hnn d (List.mem_cons_of_mem c hd))
    simp only [csvRows, csvRow_ok (hv c (List.mem_cons_self c rest))
      (hnn c (List.mem_cons_self c rest)), hrest, List.map_cons]


/-- C8 (counterexample): on a loaded one-record dataset the CSV output
leaves the `id` and `state` cells unquoted — it differs from the output
the claim's "every string field double-quoted" rule would give. -/
theorem csv_unquoted_fields_counterexample :
    processJsonData (.arr [okCenter]) = .ok okParsed ∧
    exportReportCsv okParsed = .ok okCsv ∧
    okCsv ≠ okCsvAllQuoted :=
  ⟨rfl, rfl, by decide⟩

/-- C8 (amended): for every loaded dataset whose resource entries are
non-null, the CSV export is one fixed header row followed by one row per
cost center of the full list (deleted centers included), each row having
the cells name, id, state, total resource count, organizations,
repositories, members in that order — with only the name cell wrapped in
double quotes (no other quoting or escaping). -/
theorem csv_shape (d : Json) (p : ParsedData)
    (h : processJsonData d = .ok p)
    (hres : (p.costCenters.all fun c => (resourcesOfD c).all fun r => !isNull r) = true) :
    exportReportCsv p = .ok (String.intercalate "\n"
      (String.intercalate "," csvHeaders :: p.costCenters.map csvRowSpec)) := by
  obtain ⟨-, hV, -, -, -, -, -⟩ := processJsonData_ok_inv h
  have hvalid := validateFrom_ok_all_valid hV
  have hresP : ∀ c ∈ p.costCenters, ∀ r ∈ resourcesOfD c, isNull r = false := by
    intro c hc r hr
    have h1 := (List.all_eq_true.mp hres) c hc
    have h2 := (List.all_eq_true.mp h1) r hr
    simpa using h2
  unfold exportReportCsv
  rw [csvRows_ok hvalid hresP]

/-- Witness for C8 (amended) at the one-record dataset. -/
theorem csv_shape_witness :
    exportReportCsv okParsed = .ok (String.intercalate "\n"
      (String.intercalate "," csvHeaders :: okParsed.costCenters.map csvRowSpec)) :=
  csv_shape (.arr [okCenter]) okParsed rfl rfl


theorem lookupField_setAssoc_ne {fs : List (String × Json)} {k k' : String}
    (h : k' ≠ k) (v : Json) :
    lookupField (setAssoc fs k v) k' = lookupField fs k' := by
  have hkk : (k == k') = false := by
    simp only [beq_eq_false_iff_ne, ne_eq]
    exact fun hc => h hc.symm
  induction fs with
  | nil => simp [setAssoc, lookupField, hkk]
  | cons hd rest ih =>
    obtain ⟨k0, v0⟩ := hd
    by_cases hk : (k0 == k) = true
    · have hk0 : k0 = k := by simpa [beq_iff_eq] using hk
      subst hk0
      simp [setAssoc, lookupField, hkk]
    · have hk' : (k0 == k) = false := by simpa using hk
      simp [setAssoc, hk', lookupField, ih]

theorem prop_setField_ne {c : Json} {k k' : String} (h : k' ≠ k) (v : Json) :
    prop (setField c k v) k' = prop c k' := by
  have hkk : (k == k') = false := by
    simp only [beq_eq_false_iff_ne, ne_eq]
    exact fun hc => h hc.symm
  cases c <;> simp [setField, prop, lookupField_setAssoc_ne h, lookupField, hkk]

theorem validCenter_setField {c : Json} (h : validCenter c = true) (v : Json) :
    validCenter (setField c "resourceCounts" v) = true := by
  unfold validCenter at h ⊢
  rw [show prop (setField c "resourceCounts" v) "id" = prop c "id" from
      prop_setField_ne (by decide) v,
    show prop (setField c "resourceCounts" v) "name" = prop c "name" from
      prop_setField_ne (by decide) v,
    show prop (setField c "resourceCounts" v) "state" = prop c "state" from
      prop_setField_ne (by decide) v,
    show prop (setField c "resourceCounts" v) "resources" = prop c "resources" from
      prop_setField_ne (by decide) v]
  exact h

theorem stateIs_setField (c : Json) (v : Json) (s : String) :
    stateIs (setField c "resourceCounts" v) s = stateIs c s := by
  unfold stateIs
  rw [show prop (setField c "resourceCounts" v) "state" = prop c "state" from
    prop_setField_ne (by decide) v]

theorem resourcesOfD_setField (c : Json) (v : Json) :
    resourcesOfD (setField c "resourceCounts" v) = resourcesOfD c := by
  unfold resourcesOfD
  rw [show prop (setField c "resourceCounts" v) "resources" = prop c "resources" from
    prop_setField_ne (by decide) v]

theorem isObj_setField (c : Json) (k : String) (v : Json) :
    isObj (setField c k v) = true := by
  cases c <;> simp [setField, isObj]

theorem resourcesOf?_setField {c : Json} (hv : validCenter c = true) (v : Json) :
    resourcesOf? (setField c "resourceCounts" v) = .ok (resourcesOfD c) := by
  unfold resourcesOf?
  rw [getProp_eq (isNull_false_of_isObj (isObj_setField c "resourceCounts" v))]
  rw [show prop (setField c "resourceCounts" v) "resources" = prop c "resources" from
    prop_setField_ne (by decide) v]
  rw [validCenter_resources hv]

theorem aggCenters_map_setField {l : List Json} (g : Json → Json)
    (hv : ∀ c ∈ l, validCenter c = true) :
    ∀ o r u : Nat,
      aggCenters o r u (l.map fun c => setField c "resourceCounts" (g c)) =
        aggCenters o r u l := by
  induction l with
  | nil => intro o r u; simp
  | cons c rest ih =>
    intro o r u
    have hc := hv c (List.mem_cons_self c rest)
    simp only [List.map_cons, aggCenters, resourcesOf?_setField hc,
      resourcesOf?_of_valid hc]
    cases aggResources o r u (resourcesOfD c) with
    | error e => rfl
    | ok t =>
      obtain ⟨o1, r1, u1⟩ := t
      exact ih (fun d hd => hv d (List.mem_cons_of_mem c hd)) o1 r1 u1

theorem exportCenters_ok {l : List Json}
    (hv : ∀ c ∈ l, validCenter c = true)
    (hnn : ∀ c ∈ l, ∀ r ∈ resourcesOfD c, isNull r = false) :
    exportCenters l = .ok (l.map fun c => setField c "resourceCounts"
      (resourceCountsJson (resourceCountsOf c).1 (resourceCountsOf c).2.1
        (resourceCountsOf c).2.2)) := by
  induction l with
  | nil => simp [exportCenters]
  | cons c rest ih =>
    have hrest := ih (fun d hd => hv d (List.mem_cons_of_mem c hd))
      (fun d hd => hnn d (List.mem_cons_of_mem c hd))
    simp only [exportCenters,
      getResourceCounts_ok (hv c (List.mem_cons_self c rest))
        (hnn c (List.mem_cons_self c rest)),
      hrest, List.map_cons]


/-- C6: exporting a loaded dataset (with non-null resource entries) to
JSON and re-parsing it through the validator succeeds and reproduces the
cost-center ids in order and each center's resources (hence its resource
counts). -/
theorem export_reparse_roundtrip (d : Json) (p : ParsedData) (ts : String)
    (h : processJsonData d = .ok p)
    (hres : (p.costCenters.all fun c => (resourcesOfD c).all fun r => !isNull r) = true) :
    (exportReportJson p ts).isOk = true ∧
    ((exportReportJson p ts).bind processJsonData).map
        (fun q => q.costCenters.map fun c => prop c "id") =
      .ok (p.costCenters.map fun c => prop c "id") ∧
    ((exportReportJson p ts).bind processJsonData).map
        (fun q => q.costCenters.map fun c => resourcesOfD c) =
      .ok (p.costCenters.map fun c => resourcesOfD c) := by
  obtain ⟨hE, hV, hact, hdel, hA, -, -⟩ := processJsonData_ok_inv h
  have hvalid := validateFrom_ok_all_valid hV
  have hresP : ∀ c ∈ p.costCenters, ∀ r ∈ resourcesOfD c, isNull r = false := by
    intro c hc r hr
    have h1 := (List.all_eq_true.mp hres) c hc
    have h2 := (List.all_eq_true.mp h1) r hr
    simpa using h2
  have hexp := exportCenters_ok hvalid hresP
  unfold exportReportJson
  rw [hexp]
  set l' := p.costCenters.map (fun c => setField c "resourceCounts"
    (resourceCountsJson (resourceCountsOf c).1 (resourceCountsOf c).2.1
      (resourceCountsOf c).2.2)) with hl'
  have hv' : ∀ c ∈ l', validCenter c = true := by
    intro c hc
    rw [hl'] at hc
    obtain ⟨c0, hc0, rfl⟩ := List.mem_map.mp hc
    exact validCenter_setField (hvalid c0 hc0) _
  have hval' : validateFrom 0 l' = .ok l' := validateFrom_ok_of_all_valid hv'
  have hfa : l'.filter (fun c => stateIs c "active") =
      (p.costCenters.filter (fun c => stateIs c "active")).map
        (fun c => setField c "resourceCounts"
          (resourceCountsJson (resourceCountsOf c).1 (resourceCountsOf c).2.1
            (resourceCountsOf c).2.2)) := by
    rw [hl', List.filter_map]
    congr 1
    apply List.filter_congr
    intro c hc
    simp [Function.comp, stateIs_setField]
  have hagg' : aggCenters 0 0 0 (l'.filter (fun c => stateIs c "active")) =
      .ok (p.summary.totalOrganizations, p.summary.totalRepositories,
        p.summary.totalMembers) := by
    rw [hfa]
    rw [aggCenters_map_setField _ (fun c hc => hvalid c (List.mem_filter.mp hc).1)]
    rw [← hact]
    exact hA
  have hdoc : processJsonData (.obj [("generatedAt", .str ts),
      ("summary", summaryJson p.summary), ("costCenters", .arr l')]) =
      .ok ⟨l', l'.filter (fun c => stateIs c "active"),
        l'.filter (fun c => stateIs c "deleted"),
        ⟨(l'.filter (fun c => stateIs c "active")).length,
          (l'.filter (fun c => stateIs c "deleted")).length,
          p.summary.totalOrganizations, p.summary.totalRepositories,
          p.summary.totalMembers⟩⟩ := by
    unfold processJsonData
    rw [show extractCenters (.obj [("generatedAt", .str ts),
      ("summary", summaryJson p.summary), ("costCenters", .arr l')]) = .ok l' from rfl]
    dsimp only
    rw [hval']
    dsimp only
    rw [hagg']
  refine ⟨rfl, ?_, ?_⟩
  · show (Except.bind (.ok _) processJsonData).map _ = _
    dsimp only [Except.bind]
    rw [hdoc]
    dsimp only [Except.map]
    rw [hl', List.map_map]
    refine congrArg Except.ok (List.map_congr_left ?_)
    intro c hc
    exact prop_setField_ne (by decide) _
  · show (Except.bind (.ok _) processJsonData).map _ = _
    dsimp only [Except.bind]
    rw [hdoc]
    dsimp only [Except.map]
    rw [hl', List.map_map]
    refine congrArg Except.ok (List.map_congr_left ?_)
    intro c hc
    exact resourcesOfD_setField c _


/-- C6 (counterexample): a dataset that loads successfully but whose
deleted center carries a `null` resource entry makes the JSON export
itself throw a `TypeError` (reading `.type` of `null` in
`getResourceCounts`), so the export/re-parse round trip fails. -/
theorem export_breaks_on_deleted_null_resource :
    processJsonData delNullDoc = .ok delNullParsed ∧
    exportReportJson delNullParsed "2024-01-01T00:00:00.000Z" = .error .typeError :=
  ⟨rfl, rfl⟩

/-- Witness for C6 (amended) at the worked example document. -/
theorem export_reparse_roundtrip_witness :
    (exportReportJson exParsed "2024-01-01T00:00:00.000Z").isOk = true ∧
    ((exportReportJson exParsed "2024-01-01T00:00:00.000Z").bind processJsonData).map
        (fun q => q.costCenters.map fun c => prop c "id") =
      .ok (exParsed.costCenters.map fun c => prop c "id") ∧
    ((exportReportJson exParsed "2024-01-01T00:00:00.000Z").bind processJsonData).map
        (fun q => q.costCenters.map fun c => resourcesOfD c) =
      .ok (exParsed.costCenters.map fun c => resourcesOfD c) :=
  export_reparse_roundtrip exDoc exParsed "2024-01-01T00:00:00.000Z" rfl rfl

end CostCenterApp
